import Mathlib

/-
  Verification development for the tiny-unzip ZIP reader
  (src/tiny-unzip.js, class ZipReader).

  The JavaScript source is shallowly embedded as follows:
  * the archive byte buffer (an ArrayBuffer viewed through a DataView) is a
    length together with a byte function; DataView reads are little-endian
    and raise a RangeError on any out-of-bounds or negative offset, which we
    model with an error monad (Except Err);
  * the four record kinds decoded by ZipReader.readStruct with their fixed
    field schemas (readLocalFile, readCentralDirectory, readDataDescriptor,
    readEndCentralDirectory) become one decoder per schema, reading the same
    fields, in the same order, with the same widths, and computing the same
    total consumed length that the source stores under totalLengthSymbol;
  * the mutable reader state (this.index, this.localFiles,
    this.centralDirectories, this.endOfCentralDirectory) is an explicit
    State record threaded through the scan loop and the locator
    (this.backwardIndex is written by the source but never read, and is not
    part of the archive data model, so it is kept loop-local here);
  * the while-loop of ZipReader.read is a step function (scanStep) iterated
    with a fuel argument; every iteration of the source loop strictly
    increases this.index by at least 16 while the loop guard requires
    index + 4 < byteLength, so a fuel of byteLength + 1 is never exhausted;
  * JavaScript exceptions (RangeError from DataView, TypeError from
    dereferencing undefined, and the explicit compression-method throw) are
    the Err cases of the error monad.
-/

namespace TinyUnzip

/-- Error kinds raised by the reader: `range` is a DataView RangeError on an
out-of-bounds read, `typeError` is the TypeError raised when a property of
`undefined` is accessed or assigned, `unsupportedMethod` is the explicit
"Unsupported compression method" throw in extract. -/
inductive Err where
  | range
  | typeError
  | unsupportedMethod
  deriving Repr, DecidableEq

instance {ε α : Type} [DecidableEq ε] [DecidableEq α] : DecidableEq (Except ε α) :=
  fun a b =>
    match a, b with
    | .ok x, .ok y =>
      if h : x = y then .isTrue (by rw [h])
      else .isFalse (by intro hh; cases hh; exact h rfl)
    | .error x, .error y =>
      if h : x = y then .isTrue (by rw [h])
      else .isFalse (by intro hh; cases hh; exact h rfl)
    | .ok _, .error _ => .isFalse (by intro hh; cases hh)
    | .error _, .ok _ => .isFalse (by intro hh; cases hh)

/-- The archive byte source: an immutable random-access byte sequence,
modelling the ArrayBuffer underlying the reader's DataView. -/
structure Buf where
  size : Nat
  byte : Nat → Nat

/-- Build a buffer from an explicit list of bytes. -/
def bufOfList (l : List Nat) : Buf :=
  { size := l.length, byte := fun i => l.getD i 0 }

/-- DataView.getUint8: one byte, RangeError outside [0, size). -/
def getU8 (b : Buf) (i : Int) : Except Err Nat :=
  if 0 ≤ i ∧ i + 1 ≤ (b.size : Int) then .ok (b.byte i.toNat % 256)
  else .error .range

/-- DataView.getUint16 little-endian, RangeError unless [i, i+2) is in bounds. -/
def getU16 (b : Buf) (i : Int) : Except Err Nat :=
  if 0 ≤ i ∧ i + 2 ≤ (b.size : Int) then
    .ok (b.byte i.toNat % 256 + 256 * (b.byte (i.toNat + 1) % 256))
  else .error .range

/-- DataView.getUint32 little-endian, RangeError unless [i, i+4) is in bounds. -/
def getU32 (b : Buf) (i : Int) : Except Err Nat :=
  if 0 ≤ i ∧ i + 4 ≤ (b.size : Int) then
    .ok (b.byte i.toNat % 256 + 256 * (b.byte (i.toNat + 1) % 256) +
         65536 * (b.byte (i.toNat + 2) % 256) +
         16777216 * (b.byte (i.toNat + 3) % 256))
  else .error .range

/-- A run of n single-byte reads starting at off (the text-field loop of
readStruct, which calls getUint8 once per character). -/
def readBytes (b : Buf) (off : Int) : Nat → Except Err (List Nat)
  | 0 => .ok []
  | n + 1 => do
    let x ← getU8 b off
    let rest ← readBytes b (off + 1) n
    .ok (x :: rest)

/-- Decoded Local File Header (schema of ZipReader.readLocalFile), together
with the derived fields the source attaches: totalLength (the
totalLengthSymbol value), needsDataDescriptor (general-purpose bit 3),
startsAt (offset + totalLength) and the enrichedByDataDescriptor mark set
when a Data Descriptor later patches the entry. -/
structure LocalFileEntry where
  signature : Nat
  version : Nat
  generalPurpose : Nat
  compressionMethod : Nat
  lastModifiedTime : Nat
  lastModifiedDate : Nat
  crc : Nat
  compressedSize : Nat
  uncompressedSize : Nat
  fileNameLength : Nat
  extraLength : Nat
  fileName : List Nat
  extra : List Nat
  totalLength : Nat
  needsDataDescriptor : Bool
  startsAt : Int
  enrichedByDataDescriptor : Bool
  deriving Repr, DecidableEq

/-- Decoded Central Directory Header (schema of ZipReader.readCentralDirectory). -/
structure CentralDirectoryEntry where
  signature : Nat
  versionCreated : Nat
  versionNeeded : Nat
  generalPurpose : Nat
  compressionMethod : Nat
  lastModifiedTime : Nat
  lastModifiedDate : Nat
  crc : Nat
  compressedSize : Nat
  uncompressedSize : Nat
  fileNameLength : Nat
  extraLength : Nat
  fileCommentLength : Nat
  diskNumber : Nat
  internalAttributes : Nat
  externalAttributes : Nat
  offset : Nat
  fileName : List Nat
  extra : List Nat
  comments : List Nat
  totalLength : Nat
  deriving Repr, DecidableEq

/-- Decoded Data Descriptor (schema of ZipReader.readDataDescriptor). -/
structure DataDescriptorEntry where
  signature : Nat
  crc : Nat
  compressedSize : Nat
  uncompressedSize : Nat
  totalLength : Nat
  deriving Repr, DecidableEq

/-- Decoded End-Of-Central-Directory record (schema of
ZipReader.readEndCentralDirectory). -/
structure EndOfCentralDirectoryRecord where
  signature : Nat
  numberOfDisks : Nat
  centralDirectoryStartDisk : Nat
  numberCentralDirectoryRecordsOnThisDisk : Nat
  numberCentralDirectoryRecords : Nat
  centralDirectorySize : Nat
  centralDirectoryOffset : Nat
  commentLength : Nat
  comment : List Nat
  totalLength : Nat
  deriving Repr, DecidableEq

/-- ZipReader.readLocalFile: decode the Local File Header schema at offset,
field for field in the order of the source's field list, then attach the
derived totalLength / needsDataDescriptor / startsAt values. -/
def readLocalFile (b : Buf) (off : Int) : Except Err LocalFileEntry := do
  let sig ← getU32 b off
  let version ← getU16 b (off + 4)
  let gp ← getU16 b (off + 6)
  let method ← getU16 b (off + 8)
  let time ← getU16 b (off + 10)
  let date ← getU16 b (off + 12)
  let crc ← getU32 b (off + 14)
  let csize ← getU32 b (off + 18)
  let usize ← getU32 b (off + 22)
  let nameLen ← getU16 b (off + 26)
  let extraLen ← getU16 b (off + 28)
  let name ← readBytes b (off + 30) nameLen
  let extra ← readBytes b (off + 30 + (nameLen : Int)) extraLen
  .ok { signature := sig, version := version, generalPurpose := gp,
        compressionMethod := method, lastModifiedTime := time,
        lastModifiedDate := date, crc := crc, compressedSize := csize,
        uncompressedSize := usize, fileNameLength := nameLen,
        extraLength := extraLen, fileName := name, extra := extra,
        totalLength := 30 + nameLen + extraLen,
        needsDataDescriptor := gp &&& 8 != 0,
        startsAt := off + ((30 + nameLen + extraLen : Nat) : Int),
        enrichedByDataDescriptor := false }

/-- ZipReader.readCentralDirectory: decode the Central Directory Header
schema at offset, field for field in the order of the source's field list. -/
def readCentralDirectory (b : Buf) (off : Int) : Except Err CentralDirectoryEntry := do
  let sig ← getU32 b off
  let vc ← getU16 b (off + 4)
  let vn ← getU16 b (off + 6)
  let gp ← getU16 b (off + 8)
  let method ← getU16 b (off + 10)
  let time ← getU16 b (off + 12)
  let date ← getU16 b (off + 14)
  let crc ← getU32 b (off + 16)
  let csize ← getU32 b (off + 20)
  let usize ← getU32 b (off + 24)
  let nameLen ← getU16 b (off + 28)
  let extraLen ← getU16 b (off + 30)
  let commentLen ← getU16 b (off + 32)
  let disk ← getU16 b (off + 34)
  let internal ← getU16 b (off + 36)
  let external ← getU32 b (off + 38)
  let offField ← getU32 b (off + 42)
  let name ← readBytes b (off + 46) nameLen
  let extra ← readBytes b (off + 46 + (nameLen : Int)) extraLen
  let comm ← readBytes b (off + 46 + (nameLen : Int) + (extraLen : Int)) commentLen
  .ok { signature := sig, versionCreated := vc, versionNeeded := vn,
        generalPurpose := gp, compressionMethod := method,
        lastModifiedTime := time, lastModifiedDate := date, crc := crc,
        compressedSize := csize, uncompressedSize := usize,
        fileNameLength := nameLen, extraLength := extraLen,
        fileCommentLength := commentLen, diskNumber := disk,
        internalAttributes := internal, externalAttributes := external,
        offset := offField, fileName := name, extra := extra,
        comments := comm,
        totalLength := 46 + nameLen + extraLen + commentLen }

/-- ZipReader.readDataDescriptor: decode the Data Descriptor schema at offset. -/
def readDataDescriptor (b : Buf) (off : Int) : Except Err DataDescriptorEntry := do
  let sig ← getU32 b off
  let crc ← getU32 b (off + 4)
  let csize ← getU32 b (off + 8)
  let usize ← getU32 b (off + 12)
  .ok { signature := sig, crc := crc, compressedSize := csize,
        uncompressedSize := usize, totalLength := 16 }

/-- ZipReader.readEndCentralDirectory: decode the End-Of-Central-Directory
schema at offset, including the variable-length comment whose byte length is
the previously decoded commentLength field. -/
def readEndCentralDirectory (b : Buf) (off : Int) :
    Except Err EndOfCentralDirectoryRecord := do
  let sig ← getU32 b off
  let disks ← getU16 b (off + 4)
  let startDisk ← getU16 b (off + 6)
  let recsDisk ← getU16 b (off + 8)
  let recs ← getU16 b (off + 10)
  let cdSize ← getU32 b (off + 12)
  let cdOff ← getU32 b (off + 16)
  let commentLen ← getU16 b (off + 20)
  let comm ← readBytes b (off + 22) commentLen
  .ok { signature := sig, numberOfDisks := disks,
        centralDirectoryStartDisk := startDisk,
        numberCentralDirectoryRecordsOnThisDisk := recsDisk,
        numberCentralDirectoryRecords := recs, centralDirectorySize := cdSize,
        centralDirectoryOffset := cdOff, commentLength := commentLen,
        comment := comm, totalLength := 22 + commentLen }

/-- The reader's mutable archive state: this.index, this.localFiles,
this.centralDirectories and this.endOfCentralDirectory. -/
structure State where
  index : Int
  localFiles : List LocalFileEntry
  centralDirectories : List CentralDirectoryEntry
  endOfCentralDirectory : Option EndOfCentralDirectoryRecord
  deriving Repr, DecidableEq

/-- The state set up by the ZipReader constructor. -/
def initState : State :=
  { index := 0, localFiles := [], centralDirectories := [],
    endOfCentralDirectory := none }

/-- ZipReader.entryByFileName with useCentralDirectory = true: first
central-directory entry whose fileName equals the given name. -/
def entryByFileNameCD (st : State) (name : List Nat) :
    Option CentralDirectoryEntry :=
  st.centralDirectories.find? (fun c => decide (c.fileName = name))

/-- ZipReader.entryByFileName with useCentralDirectory = false: first local
entry whose fileName equals the given name. -/
def entryByFileNameLocal (st : State) (name : List Nat) :
    Option LocalFileEntry :=
  st.localFiles.find? (fun c => decide (c.fileName = name))

/-- The in-place field assignments performed on the most recently appended
local entry when a Data Descriptor is read. -/
def descPatch (e : LocalFileEntry) (d : DataDescriptorEntry) : LocalFileEntry :=
  { e with crc := d.crc, compressedSize := d.compressedSize,
           uncompressedSize := d.uncompressedSize,
           enrichedByDataDescriptor := true }

/-- Replace the last element of the local-entries list by its
descriptor-patched version (the source mutates localFiles[length - 1] in
place). -/
def patchLast (d : DataDescriptorEntry) : List LocalFileEntry → List LocalFileEntry
  | [] => []
  | [e] => [descPatch e d]
  | e :: e' :: rest => e :: patchLast d (e' :: rest)

/-- Outcome of one iteration of the while-loop body of ZipReader.read:
continue with a new state, break out of the loop with a final state, or
raise an exception. -/
inductive StepRes where
  | next (st : State)
  | halt (st : State)
  | fail (e : Err)
  deriving Repr, DecidableEq

/-- One iteration of the while-loop body of ZipReader.read, dispatching on
the 4-byte signature at this.index exactly as the source's if/else chain
does (local file, data descriptor, the central-directory-mode early break,
central directory, end of central directory, unknown signature). -/
def scanStep (b : Buf) (ucd : Bool) (st : State) : StepRes :=
  match getU32 b st.index with
  | .error e => .fail e
  | .ok sig =>
    if sig = 0x04034b50 then
      match readLocalFile b st.index with
      | .error e => .fail e
      | .ok entry =>
        let st1 : State :=
          { st with localFiles := st.localFiles ++ [entry],
                    index := st.index + entry.startsAt + (entry.compressedSize : Int) }
        if entry.needsDataDescriptor then
          if ucd then
            match entryByFileNameCD st1 entry.fileName with
            | none => .fail .typeError
            | some cd => .next { st1 with index := st1.index + (cd.compressedSize : Int) }
          else .halt st1
        else .next st1
    else if sig = 0x08074b50 then
      match readDataDescriptor b st.index with
      | .error e => .fail e
      | .ok d =>
        if st.localFiles = [] then .fail .typeError
        else .next { st with localFiles := patchLast d st.localFiles,
                             index := st.index + (d.totalLength : Int) }
    else if ucd then .halt st
    else if sig = 0x02014b50 then
      match readCentralDirectory b st.index with
      | .error e => .fail e
      | .ok c =>
        .next { st with centralDirectories := st.centralDirectories ++ [c],
                        index := st.index + (c.totalLength : Int) }
    else if sig = 0x06054b50 then
      match readEndCentralDirectory b st.index with
      | .error e => .fail e
      | .ok r =>
        .halt { st with endOfCentralDirectory := some r,
                        index := st.index + (r.totalLength : Int) }
    else .halt st

/-- The while-loop of ZipReader.read: iterate scanStep while
index + 4 < byteLength.  Every executed iteration strictly increases index
by at least 16, so fuel = byteLength + 1 is never exhausted. -/
def scanLoop (b : Buf) (ucd : Bool) : Nat → State → Except Err State
  | 0, st => .ok st
  | fuel + 1, st =>
    if st.index + 4 < (b.size : Int) then
      match scanStep b ucd st with
      | .next st' => scanLoop b ucd fuel st'
      | .halt st' => .ok st'
      | .fail e => .error e
    else .ok st

/-- The nested helper heuristicsCentralDirectorySearch of ZipReader.read:
validate a candidate EOCD offset (signature match, exact tail length,
central-directory signature at the declared offset) and, on success, store
the record and append the central-directory entries decoded from the
declared offset up to the candidate offset.  cdLoop below is its inner
while-loop; each of its iterations advances readOffset by at least 46, so
fuel = byteLength + 1 is never exhausted. -/
def cdLoop (b : Buf) (stop : Int) :
    Nat → Int → List CentralDirectoryEntry → Except Err (List CentralDirectoryEntry)
  | 0, _, acc => .ok acc
  | fuel + 1, ro, acc =>
    if ro < stop then
      match readCentralDirectory b ro with
      | .error e => .error e
      | .ok c => cdLoop b stop fuel (ro + (c.totalLength : Int)) (acc ++ [c])
    else .ok acc

/-- heuristicsCentralDirectorySearch itself: returns whether validation
succeeded together with the (possibly updated) state. -/
def heuristicsCentralDirectorySearch (b : Buf) (st : State) (offset : Int) :
    Except Err (Bool × State) :=
  match getU32 b offset with
  | .error e => .error e
  | .ok sig =>
    if sig = 0x06054b50 then
      match readEndCentralDirectory b offset with
      | .error e => .error e
      | .ok r =>
        if (r.totalLength : Int) = (b.size : Int) - offset then
          match getU32 b (r.centralDirectoryOffset : Int) with
          | .error e => .error e
          | .ok sig2 =>
            if sig2 = 0x02014b50 then
              match cdLoop b offset (b.size + 1) (r.centralDirectoryOffset : Int)
                  st.centralDirectories with
              | .error e => .error e
              | .ok cds =>
                .ok (true, { st with endOfCentralDirectory := some r,
                                     centralDirectories := cds })
            else .ok (false, st)
        else .ok (false, st)
    else .ok (false, st)

/-- The hot-spot candidate list built by ZipReader.read: byteLength - 22,
and byteLength - 64 * 1024 - 22 when that jump position is positive. -/
def hotspotList (b : Buf) : List Int :=
  [(b.size : Int) - 22] ++
    (if 0 < (b.size : Int) - 64 * 1024 - 22
     then [(b.size : Int) - 64 * 1024 - 22] else [])

/-- The hot-spot for-loop of ZipReader.read: try each candidate in order,
breaking at the first successful validation.  The returned list records the
offsets actually probed, in order. -/
def tryHotspots (b : Buf) : List Int → State → Except Err (List Int × State)
  | [], st => .ok ([], st)
  | o :: rest, st =>
    match heuristicsCentralDirectorySearch b st o with
    | .error e => .error e
    | .ok (true, st') => .ok ([o], st')
    | .ok (false, st') =>
      match tryHotspots b rest st' with
      | .error e => .error e
      | .ok (tr, st'') => .ok (o :: tr, st'')

/-- The hot-spot phase: runs only when no EOCD record is stored yet (the
source guards it with if (!this.endOfCentralDirectory)). -/
def runHotspots (b : Buf) (st : State) : Except Err (List Int × State) :=
  if st.endOfCentralDirectory.isSome then .ok ([], st)
  else tryHotspots b (hotspotList b) st

/-- The backward brute-force while-loop of ZipReader.read: starting from a
given backwardIndex, probe and decrement while no EOCD record is stored,
the index is positive and above the scanner's cursor; break at the first
successful validation.  The returned list records the offsets actually
probed, in order.  Each executed iteration decrements backwardIndex, so
fuel = byteLength + 1 is never exhausted for the start value
byteLength - 23. -/
def runBackward (b : Buf) : Nat → Int → State → Except Err (List Int × State)
  | 0, _, st => .ok ([], st)
  | fuel + 1, bi, st =>
    if st.endOfCentralDirectory = none ∧ 0 < bi ∧ st.index < bi then
      match heuristicsCentralDirectorySearch b st bi with
      | .error e => .error e
      | .ok (true, st') => .ok ([bi], st')
      | .ok (false, st') =>
        match runBackward b fuel (bi - 1) st' with
        | .error e => .error e
        | .ok (tr, st'') => .ok (bi :: tr, st'')
    else .ok ([], st)

/-- The End-Of-Central-Directory locator: the hot-spot phase followed by the
backward brute-force scan from byteLength - 23, as at the end of
ZipReader.read.  The trace of probed offsets is returned alongside the
state. -/
def runLocator (b : Buf) (st : State) : Except Err (List Int × State) :=
  match runHotspots b st with
  | .error e => .error e
  | .ok (t1, st1) =>
    match runBackward b (b.size + 1) ((b.size : Int) - 23) st1 with
    | .error e => .error e
    | .ok (t2, st2) => .ok (t1 ++ t2, st2)

/-- ZipReader.read: optionally reset for central-directory-authoritative
mode, run the sequential scan, and (in plain mode only) run the locator. -/
def read (b : Buf) (useCentralDirectory : Bool) (st : State) : Except Err State :=
  let st0 := if useCentralDirectory then { st with index := 0, localFiles := [] }
             else st
  match scanLoop b useCentralDirectory (b.size + 1) st0 with
  | .error e => .error e
  | .ok st1 =>
    if useCentralDirectory then .ok st1
    else
      match runLocator b st1 with
      | .error e => .error e
      | .ok (_, st2) => .ok st2

/-- Modelled from the spec's wording for the central-directory read-out on
a successful EOCD validation: the list of central-directory entries decoded
sequentially from a start offset, each advancing the read position by its
total length, until the read position reaches the stop offset.  This is the
specification-side counterpart of the state-threading cdLoop above. -/
def cdListFrom (b : Buf) (stop : Int) :
    Nat → Int → Except Err (List CentralDirectoryEntry)
  | 0, _ => .ok []
  | fuel + 1, ro =>
    if ro < stop then
      match readCentralDirectory b ro with
      | .error e => .error e
      | .ok c =>
        match cdListFrom b stop fuel (ro + (c.totalLength : Int)) with
        | .error e => .error e
        | .ok l => .ok (c :: l)
    else .ok []

/-- Modelled from the spec's wording for the locator's probing order: the
descending list of backward-scan candidates, starting at a given offset and
decrementing down to, but not below, the scanner's cursor position. -/
def backwardCands : Nat → Int → Int → List Int
  | 0, _, _ => []
  | fuel + 1, bi, lo => if lo < bi then bi :: backwardCands fuel (bi - 1) lo else []

/-- Modelled from the spec's wording: the full locator candidate sequence —
first bufferLength - 22, then (only when the buffer is larger than
64 KiB + 22 bytes) bufferLength - 65536 - 22, then the backward candidates
from bufferLength - 23 down to just above the scanner's cursor. -/
def specCandidates (b : Buf) (st : State) : List Int :=
  [(b.size : Int) - 22] ++
    (if 64 * 1024 + 22 < (b.size : Int) then [(b.size : Int) - 65536 - 22]
     else []) ++
    backwardCands (b.size + 1) ((b.size : Int) - 23) st.index

/-- Modelled from the spec's wording: probe a list of candidate offsets in
order, stopping at the first offset that validates, recording the probed
offsets. -/
def specProbeRun (b : Buf) : List Int → State → Except Err (List Int × State)
  | [], st => .ok ([], st)
  | o :: rest, st =>
    match heuristicsCentralDirectorySearch b st o with
    | .error e => .error e
    | .ok (true, st') => .ok ([o], st')
    | .ok (false, st') =>
      match specProbeRun b rest st' with
      | .error e => .error e
      | .ok (tr, st'') => .ok (o :: tr, st'')

/-- An entry handed to ZipReader.extract: either local-file shaped or
central-directory shaped (the source discriminates on structTypeSymbol). -/
inductive Entry where
  | localFile (e : LocalFileEntry)
  | centralDirectory (c : CentralDirectoryEntry)
  deriving Repr, DecidableEq

/-- The entry-resolution step at the top of ZipReader.extract: a
central-directory entry is replaced by the local file entry decoded at its
stored offset. -/
def resolveEntry (b : Buf) : Entry → Except Err LocalFileEntry
  | .localFile e => .ok e
  | .centralDirectory c => readLocalFile b (c.offset : Int)

/-- The compressed-size fallback of ZipReader.extract: the variable
centralDirectory is the entry as originally passed, so for a local-file
shaped entry the fallback is the entry's own compressedSize. -/
def fallbackSize : Entry → Nat
  | .localFile e => e.compressedSize
  | .centralDirectory c => c.compressedSize

/-- ArrayBuffer.prototype.slice(s, e): negative indices count from the end
and both ends clamp to [0, size]. -/
def jsSlice (b : Buf) (s e : Int) : List Nat :=
  let len : Int := (b.size : Int)
  let s' := if s < 0 then max (len + s) 0 else min s len
  let e' := if e < 0 then max (len + e) 0 else min e len
  if s' < e' then
    (List.range (e' - s').toNat).map
      (fun (k : Nat) => b.byte (s' + (k : Int)).toNat % 256)
  else []

/-- The body of ZipReader.extract after entry resolution: slice the byte
range [startsAt, startsAt + (compressedSize || fallback)) out of the buffer
and dispatch on the compression method; method 0 returns the slice
verbatim, method 8 pipes it through the injected raw-deflate filter, any
other method throws "Unsupported compression method". -/
def extractResolved (inflate : List Nat → Except Err (List Nat)) (b : Buf)
    (lf : LocalFileEntry) (fallback : Nat) : Except Err (List Nat) :=
  let csize := if lf.compressedSize = 0 then fallback else lf.compressedSize
  let data := jsSlice b lf.startsAt (lf.startsAt + (csize : Int))
  if lf.compressionMethod = 0x00 then .ok data
  else if lf.compressionMethod = 0x08 then inflate data
  else .error .unsupportedMethod

/-- ZipReader.extract, with the DecompressionStream("deflate-raw") pipeline
abstracted as an injected inflate capability. -/
def extract (inflate : List Nat → Except Err (List Nat)) (b : Buf)
    (ent : Entry) : Except Err (List Nat) :=
  match resolveEntry b ent with
  | .error e => .error e
  | .ok lf => extractResolved inflate b lf (fallbackSize ent)

/-- Extraction paired with the reader state it runs against: the source's
extract method only reads this.dataView and never assigns to any reader
field, so the state component passes through unchanged. -/
def extractS (inflate : List Nat → Except Err (List Nat)) (b : Buf)
    (st : State) (ent : Entry) : Except Err (List Nat) × State :=
  (extract inflate b ent, st)

/-- A sample injected decompression capability (identity), used only to
instantiate theorems at concrete inputs; the claims below never reach the
method-8 branch. -/
def dummyInflate : List Nat → Except Err (List Nat) := fun l => .ok l

/-! Concrete archive buffers used to instantiate and to refute claims.
The byte-building helpers below lay out little-endian fields in exactly the
schema order of the decoders above. -/

/-- Two bytes, little endian. -/
def u16b (n : Nat) : List Nat := [n % 256, n / 256 % 256]

/-- Four bytes, little endian. -/
def u32b (n : Nat) : List Nat :=
  [n % 256, n / 256 % 256, n / 65536 % 256, n / 16777216 % 256]

/-- A 30-byte Local File Header with empty name and extra fields. -/
def lfhBytes (gp method crc csize usize : Nat) : List Nat :=
  [0x50, 0x4B, 0x03, 0x04] ++ u16b 0 ++ u16b gp ++ u16b method ++ u16b 0 ++
    u16b 0 ++ u32b crc ++ u32b csize ++ u32b usize ++ u16b 0 ++ u16b 0

/-- A 46-byte Central Directory Header with empty name, extra and comment. -/
def cdhBytes (method csize usize offset : Nat) : List Nat :=
  [0x50, 0x4B, 0x01, 0x02] ++ u16b 0 ++ u16b 0 ++ u16b 0 ++ u16b method ++
    u16b 0 ++ u16b 0 ++ u32b 0 ++ u32b csize ++ u32b usize ++ u16b 0 ++
    u16b 0 ++ u16b 0 ++ u16b 0 ++ u16b 0 ++ u32b 0 ++ u32b offset

/-- A 16-byte Data Descriptor. -/
def ddBytes (crc csize usize : Nat) : List Nat :=
  [0x50, 0x4B, 0x07, 0x08] ++ u32b crc ++ u32b csize ++ u32b usize

/-- An End-Of-Central-Directory record with the given declared
central-directory offset, comment length field and comment bytes. -/
def eocdBytes (cdOff commentLen : Nat) (comment : List Nat) : List Nat :=
  [0x50, 0x4B, 0x05, 0x06] ++ u16b 0 ++ u16b 0 ++ u16b 0 ++ u16b 0 ++
    u32b 0 ++ u32b cdOff ++ u16b commentLen ++ comment

/-- Three stored Local File Headers with zero data at offsets 0, 30 and 60
(90 bytes): a well-formed prefix of a three-entry stored archive. -/
def bufC1 : Buf :=
  bufOfList (lfhBytes 0 0 0 0 0 ++ lfhBytes 0 0 0 0 0 ++ lfhBytes 0 0 0 0 0)

/-- A Central Directory Header at offset 0 followed by a Local File Header
at offset 46 (76 bytes); every Local File Header in it has bit 3 clear. -/
def bufC2 : Buf := bufOfList (cdhBytes 0 0 0 0 ++ lfhBytes 0 0 0 0 0)

/-- A Central Directory Header at offset 0 followed by a minimal EOCD
record at offset 46 declaring central-directory offset 0 (68 bytes). -/
def bufC3w : Buf := bufOfList (cdhBytes 0 0 0 0 ++ eocdBytes 0 0 [])

/-- A 120-byte buffer carrying two overlapping valid EOCD candidates: one
at offset 76 whose 22-byte comment covers the tail, and one at offset 98
with an empty comment; both declare central-directory offset 104, where the
bytes 0x50 0x4B 0x01 0x02 of the outer record's field area form a Central
Directory signature. -/
def bufC5 : Buf :=
  bufOfList (List.replicate 76 0 ++
    ([0x50, 0x4B, 0x05, 0x06] ++ List.replicate 8 0 ++ u32b 0 ++ u32b 104 ++
      u16b 22) ++
    ([0x50, 0x4B, 0x05, 0x06] ++ u16b 0 ++ [0x50, 0x4B] ++ [1, 2] ++ u16b 0 ++
      u32b 0 ++ u32b 104 ++ u16b 0))

/-- One Local File Header with general-purpose bit 3 set and zero declared
sizes, immediately followed by a Data Descriptor with CRC 1 (46 bytes). -/
def bufC6 : Buf := bufOfList (lfhBytes 8 0 0 0 0 ++ ddBytes 1 0 0)

/-- One stored entry whose header declares compressed size 4, four data
bytes, then a Data Descriptor with CRC 7, compressed size 4, uncompressed
size 9 (50 bytes): the scanner's cursor lands exactly on the descriptor. -/
def bufC6b : Buf :=
  bufOfList (lfhBytes 0 0 0 4 0 ++ [1, 2, 3, 4] ++ ddBytes 7 4 9)

/-- One stored entry declaring compressed size 1 but uncompressed size 2,
followed by its single data byte 170 (31 bytes). -/
def bufC7 : Buf := bufOfList (lfhBytes 0 0 0 1 2 ++ [170])

/-- A stored entry (method 0, 1 data byte 187) whose Central Directory
Header at offset 31 declares compression method 12 and points back at
offset 0 (77 bytes). -/
def bufC8 : Buf :=
  bufOfList (lfhBytes 0 0 0 1 1 ++ [187] ++ cdhBytes 12 1 1 0)

/-- A Local File Header with bit 3 set at offset 0 and a second, bit-3
clear Local File Header at offset 30 (60 bytes). -/
def bufC9 : Buf := bufOfList (lfhBytes 8 0 0 0 0 ++ lfhBytes 0 0 0 0 0)

/-- A lone minimal EOCD record (22 bytes). -/
def bufC9w : Buf := bufOfList (eocdBytes 0 0 [])

/-- Sixteen bytes that start with the Data Descriptor signature
0x08074b50. -/
def bufDD16 : Buf := bufOfList (ddBytes 0 0 0)

/-- The EOCD record found by hot-spot probing at offset 98 of bufC5. -/
def eocdC5A : EndOfCentralDirectoryRecord :=
  { signature := 0x06054b50, numberOfDisks := 0,
    centralDirectoryStartDisk := 19280,
    numberCentralDirectoryRecordsOnThisDisk := 513,
    numberCentralDirectoryRecords := 0, centralDirectorySize := 0,
    centralDirectoryOffset := 104, commentLength := 0, comment := [],
    totalLength := 22 }

/-- The EOCD record found by the backward-only scan at offset 76 of
bufC5. -/
def eocdC5B : EndOfCentralDirectoryRecord :=
  { signature := 0x06054b50, numberOfDisks := 0,
    centralDirectoryStartDisk := 0,
    numberCentralDirectoryRecordsOnThisDisk := 0,
    numberCentralDirectoryRecords := 0, centralDirectorySize := 0,
    centralDirectoryOffset := 104, commentLength := 22,
    comment := [80, 75, 5, 6, 0, 0, 80, 75, 1, 2, 0, 0, 0, 0, 0, 0,
      104, 0, 0, 0, 0, 0],
    totalLength := 44 }

/-- The state after the hot-spot phase on bufC5. -/
def stC5A : State :=
  { index := 0, localFiles := [], centralDirectories := [],
    endOfCentralDirectory := some eocdC5A }

/-- The state after the backward-only scan on bufC5. -/
def stC5B : State :=
  { index := 0, localFiles := [], centralDirectories := [],
    endOfCentralDirectory := some eocdC5B }

/-- The offsets probed by the backward-only scan on bufC5. -/
def trC5 : List Int :=
  [97, 96, 95, 94, 93, 92, 91, 90, 89, 88, 87, 86, 85, 84, 83, 82, 81,
   80, 79, 78, 77, 76]

/-- The single local entry recovered from bufC7. -/
def eC7 : LocalFileEntry :=
  { signature := 0x04034b50, version := 0, generalPurpose := 0,
    compressionMethod := 0, lastModifiedTime := 0, lastModifiedDate := 0,
    crc := 0, compressedSize := 1, uncompressedSize := 2,
    fileNameLength := 0, extraLength := 0, fileName := [], extra := [],
    totalLength := 30, needsDataDescriptor := false, startsAt := 30,
    enrichedByDataDescriptor := false }

/-- A local entry declaring the unsupported compression method 0x0C. -/
def eC8bad : LocalFileEntry := { eC7 with compressionMethod := 0x0C }

/-- A concrete Data Descriptor record with all-zero payload fields, as
decoded at offset 0 of bufDD16. -/
def ddZero : DataDescriptorEntry :=
  { signature := 0x08074b50, crc := 0, compressedSize := 0,
    uncompressedSize := 0, totalLength := 16 }

/-- A scanner state whose cursor sits at offset 0 with one already-appended
local entry. -/
def stC6w : State :=
  { index := 0, localFiles := [eC7], centralDirectories := [],
    endOfCentralDirectory := none }

/-- The concrete central-directory entry decoded at offset 0 of bufC3w. -/
def cdC3 : CentralDirectoryEntry :=
  { signature := 0x02014b50, versionCreated := 0, versionNeeded := 0,
    generalPurpose := 0, compressionMethod := 0, lastModifiedTime := 0,
    lastModifiedDate := 0, crc := 0, compressedSize := 0,
    uncompressedSize := 0, fileNameLength := 0, extraLength := 0,
    fileCommentLength := 0, diskNumber := 0, internalAttributes := 0,
    externalAttributes := 0, offset := 0, fileName := [], extra := [],
    comments := [], totalLength := 46 }

/-- The concrete EOCD record decoded at offset 46 of bufC3w. -/
def eocdC3 : EndOfCentralDirectoryRecord :=
  { signature := 0x06054b50, numberOfDisks := 0,
    centralDirectoryStartDisk := 0,
    numberCentralDirectoryRecordsOnThisDisk := 0,
    numberCentralDirectoryRecords := 0, centralDirectorySize := 0,
    centralDirectoryOffset := 0, commentLength := 0, comment := [],
    totalLength := 22 }

/-- The state produced by a successful validation at offset 46 of bufC3w. -/
def stC3x : State :=
  { index := 0, localFiles := [], centralDirectories := [cdC3],
    endOfCentralDirectory := some eocdC3 }

/-- Every Local File Header present in the buffer declares its sizes
upfront: wherever the 4 bytes at an offset form the Local File Header
signature, the header decoded there has general-purpose bit 3 clear. -/
def SizesUpfront (b : Buf) : Prop :=
  ∀ i < b.size, getU32 b (i : Int) = .ok 0x04034b50 →
    ((readLocalFile b (i : Int)).toOption.all
      fun e => !e.needsDataDescriptor) = true

/-- No offset of the buffer carries the Data Descriptor signature. -/
def NoDescriptorSig (b : Buf) : Prop :=
  ∀ i < b.size, getU32 b (i : Int) ≠ .ok 0x08074b50

instance (b : Buf) : Decidable (SizesUpfront b) := by
  unfold SizesUpfront; infer_instance

instance (b : Buf) : Decidable (NoDescriptorSig b) := by
  unfold NoDescriptorSig; infer_instance

/-! Basic facts about the embedded readers. -/

theorem exceptBind_ok {ε α β : Type} (x : Except ε α) (f : α → Except ε β)
    (v : β) : (x >>= f) = .ok v ↔ ∃ a, x = .ok a ∧ f a = .ok v := by
  cases x <;> simp [Bind.bind, Except.bind]

theorem getU32_ok_bounds {b : Buf} {i : Int} {v : Nat}
    (h : getU32 b i = .ok v) : 0 ≤ i ∧ i + 4 ≤ (b.size : Int) := by
  by_contra hc
  simp only [getU32, if_neg hc] at h
  cases h

theorem getU16_ok_lt {b : Buf} {i : Int} {v : Nat}
    (h : getU16 b i = .ok v) : v < 65536 := by
  unfold getU16 at h
  split at h
  · cases h
    have h1 := Nat.mod_lt (b.byte i.toNat) (show 0 < 256 by decide)
    have h2 := Nat.mod_lt (b.byte (i.toNat + 1)) (show 0 < 256 by decide)
    omega
  · cases h

/-- Every decoded End-Of-Central-Directory record has
totalLength = 22 + commentLength, with commentLength a 16-bit value. -/
theorem readEOCD_totalLength {b : Buf} {off : Int}
    {r : EndOfCentralDirectoryRecord}
    (h : readEndCentralDirectory b off = .ok r) :
    r.totalLength = 22 + r.commentLength ∧ r.commentLength < 65536 := by
  unfold readEndCentralDirectory at h
  simp only [exceptBind_ok] at h
  obtain ⟨sig, _, disks, _, sd, _, rd, _, recs, _, cs, _, co, _, cl, hcl, cm, _, hr⟩ := h
  cases hr
  exact ⟨rfl, getU16_ok_lt hcl⟩

theorem jsSlice_length {b : Buf} {s : Int} {n : Nat}
    (h0 : 0 ≤ s) (hb : s + (n : Int) ≤ (b.size : Int)) :
    (jsSlice b s (s + (n : Int))).length = n := by
  unfold jsSlice
  have hs : ¬s < 0 := by omega
  have he : ¬s + (n : Int) < 0 := by omega
  simp only [hs, he, if_false]
  rw [min_eq_left (by omega), min_eq_left hb]
  split
  · rw [List.length_map, List.length_range]
    omega
  · simp only [List.length_nil]
    omega

end TinyUnzip

namespace TinyUnzip

/-- C1: evaluation of the sequential scan on a buffer holding three
consecutive 30-byte Local File Headers (each with compressed size 0) at
offsets 0, 30 and 60.  The spec says each step advances the cursor by
header length + compressed size, which would visit all three headers and
end at cursor 90 with three entries; the code instead executes
this.index += entry.startsAt + entry.compressedSize, where startsAt is the
absolute offset plus the header length, so from cursor 30 it jumps to
30 + (30 + 30) + 0 = 90, skipping the header at offset 60: only two
entries are decoded even though a Local File Header signature sits at
offset 60. -/
theorem c1_cursor_advance_eval :
    (read bufC1 false initState).map
        (fun s => (s.localFiles.length, s.index,
          s.localFiles.map (fun e => e.startsAt))) = .ok (2, 90, [30, 60]) ∧
    getU32 bufC1 60 = .ok 0x04034b50 := by
  constructor <;> decide

/-- C10: on a 16-byte buffer whose first four bytes are the Data Descriptor
signature 0x08074b50, read() decodes the descriptor with an empty
local-entries list, and the patch target localFiles[length - 1] is
undefined, so the field assignment faults (TypeError): read is not total on
arbitrary byte buffers. -/
theorem c10_descriptor_crash :
    getU32 bufDD16 0 = .ok 0x08074b50 ∧
    read bufDD16 false initState = .error .typeError := by
  constructor <;> decide

/-- C7 counterexample: on bufC7 the recovered entry has method 0x00,
compressedSize 1 and uncompressedSize 2, and extract returns exactly one
byte — the output length equals compressedSize but differs from the
entry's uncompressedSize field, contradicting the claim that it equals
both. -/
theorem c7_counter :
    (read bufC7 false initState).map
        (fun s => s.localFiles.map
          (fun e => (e.compressionMethod, e.compressedSize,
            e.uncompressedSize))) = .ok [(0, 1, 2)] ∧
    (read bufC7 false initState).map
        (fun s => s.localFiles.head?.map
          (fun e => (extract dummyInflate bufC7 (.localFile e)).map
            List.length)) = .ok (some (.ok 1)) := by
  constructor <;> decide

/-- C7 amended: for every local-file entry with compression method 0x00
whose data range [startsAt, startsAt + compressedSize) lies inside the
buffer, extract returns the slice verbatim and the output byte length
equals the entry's compressedSize; it equals the uncompressedSize field
only when the entry declares equal sizes (the code never checks this). -/
theorem c7_store_slice (inflate : List Nat → Except Err (List Nat))
    (b : Buf) (lf : LocalFileEntry)
    (hm : lf.compressionMethod = 0x00)
    (h0 : 0 ≤ lf.startsAt)
    (hb : lf.startsAt + (lf.compressedSize : Int) ≤ (b.size : Int)) :
    extract inflate b (.localFile lf) =
      .ok (jsSlice b lf.startsAt (lf.startsAt + (lf.compressedSize : Int))) ∧
    (jsSlice b lf.startsAt (lf.startsAt + (lf.compressedSize : Int))).length
      = lf.compressedSize ∧
    (lf.uncompressedSize = lf.compressedSize →
      (jsSlice b lf.startsAt
        (lf.startsAt + (lf.compressedSize : Int))).length
        = lf.uncompressedSize) := by
  have hlen := jsSlice_length h0 hb
  refine ⟨?_, hlen, fun hu => by rw [hu]; exact hlen⟩
  unfold extract resolveEntry extractResolved fallbackSize
  simp [ite_self, hm]

/-- C7 witness: the amended statement applied to the concrete entry of
bufC7. -/
theorem c7_store_slice_witness :
    extract dummyInflate bufC7 (.localFile eC7) =
      .ok (jsSlice bufC7 eC7.startsAt
        (eC7.startsAt + (eC7.compressedSize : Int))) ∧
    (jsSlice bufC7 eC7.startsAt
      (eC7.startsAt + (eC7.compressedSize : Int))).length
      = eC7.compressedSize ∧
    (eC7.uncompressedSize = eC7.compressedSize →
      (jsSlice bufC7 eC7.startsAt
        (eC7.startsAt + (eC7.compressedSize : Int))).length
        = eC7.uncompressedSize) :=
  c7_store_slice dummyInflate bufC7 eC7 rfl (by decide) (by decide)

/-- C8 counterexample: after read(), bufC8's central directory holds an
entry whose own compression method code is 0x0C (neither 0x00 nor 0x08),
yet extract on that entry succeeds and returns a byte, because extract
dispatches on the method of the re-read Local File Header (0x00 here), not
on the central-directory entry's method field. -/
theorem c8_counter :
    (read bufC8 false initState).map
        (fun s => s.centralDirectories.map
          (fun c => c.compressionMethod)) = .ok [12] ∧
    (read bufC8 false initState).map
        (fun s => s.centralDirectories.head?.map
          (fun c => extract dummyInflate bufC8 (.centralDirectory c)))
      = .ok (some (.ok [187])) := by
  constructor <;> decide

/-- C8 amended: for every entry whose effective compression method — the
entry's own for a local-file entry, the re-read Local File Header's for a
central-directory entry — is neither 0x00 nor 0x08, extract fails with the
unsupported-compression-method error, returns no bytes, and leaves the
reader state unchanged. -/
theorem c8_unsupported_method (inflate : List Nat → Except Err (List Nat))
    (b : Buf) (st : State) (ent : Entry) (lf : LocalFileEntry)
    (hres : resolveEntry b ent = .ok lf)
    (h0 : lf.compressionMethod ≠ 0x00) (h8 : lf.compressionMethod ≠ 0x08) :
    extractS inflate b st ent = (.error .unsupportedMethod, st) := by
  unfold extractS extract
  rw [hres]
  unfold extractResolved
  simp only [if_neg h0, if_neg h8]

/-- C8 witness: the amended statement applied to a concrete method-0x0C
entry. -/
theorem c8_unsupported_method_witness :
    extractS dummyInflate bufDD16 initState (.localFile eC8bad)
      = (.error .unsupportedMethod, initState) :=
  c8_unsupported_method dummyInflate bufDD16 initState (.localFile eC8bad)
    eC8bad rfl (by decide) (by decide)

theorem patchLast_append (d : DataDescriptorEntry)
    (l : List LocalFileEntry) (x : LocalFileEntry) :
    patchLast d (l ++ [x]) = l ++ [descPatch x d] := by
  induction l with
  | nil => rfl
  | cons a t ih =>
    cases t with
    | nil => rfl
    | cons a' t' => simpa [patchLast] using ih

/-- C6 counterexample: bufC6 holds one entry with general-purpose bit 3
set whose compressed data (empty) is immediately followed by a Data
Descriptor carrying CRC 1; after a plain read() the entry still holds the
zero placeholders from the header and is not marked descriptor-enriched,
because the plain scan halts at a bit-3 entry before ever reading its
descriptor. -/
theorem c6_counter :
    (read bufC6 false initState).map
        (fun s => s.localFiles.map
          (fun e => (e.needsDataDescriptor, e.enrichedByDataDescriptor,
            e.crc, e.compressedSize, e.uncompressedSize)))
      = .ok [(true, false, 0, 0, 0)] ∧
    readDataDescriptor bufC6 30 =
      .ok { signature := 0x08074b50, crc := 1, compressedSize := 0,
            uncompressedSize := 0, totalLength := 16 } := by
  constructor <;> decide

/-- C6 amended: whenever the scan processes a Data Descriptor record (the
signature at the cursor is 0x08074b50 and the descriptor decodes) while
the local-entries list is nonempty, the most recently appended entry's
CRC, compressedSize and uncompressedSize are overwritten with the
descriptor's decoded values, the entry is marked descriptor-enriched, and
the cursor advances by the descriptor's length; under a plain read() an
entry with bit 3 set halts the scan before its own descriptor is reached,
so its placeholders survive (see the counterexample). -/
theorem c6_descriptor_patch (b : Buf) (ucd : Bool) (st : State)
    (d : DataDescriptorEntry) (l : List LocalFileEntry)
    (last : LocalFileEntry)
    (hsig : getU32 b st.index = .ok 0x08074b50)
    (hd : readDataDescriptor b st.index = .ok d)
    (hlf : st.localFiles = l ++ [last]) :
    scanStep b ucd st =
      .next { st with localFiles := l ++ [descPatch last d],
                      index := st.index + (d.totalLength : Int) } := by
  unfold scanStep
  rw [hsig, hd]
  have hne : ¬st.localFiles = [] := by simp [hlf]
  simp only [reduceIte, if_neg hne]
  rw [hlf, patchLast_append]
  rw [if_neg (show ¬(134695760 = 67324752) by decide)]

/-- C6 witness: the amended statement applied at a concrete descriptor
record and a state with one pending local entry. -/
theorem c6_descriptor_patch_witness :
    scanStep bufDD16 false stC6w =
      .next { stC6w with localFiles := [] ++ [descPatch eC7 ddZero],
                         index := stC6w.index + (ddZero.totalLength : Int) } :=
  c6_descriptor_patch bufDD16 false stC6w ddZero [] eC7 (by decide)
    (by decide) rfl

/-- C9 counterexample: on bufC9 the first plain read() halts at the bit-3
entry with one local entry collected; a second plain read() on the same
handle does not throw and appends a further entry (the header at offset 30
now under the cursor), so entries accumulate and the state is not
preserved. -/
theorem c9_counter :
    (read bufC9 false initState).map (fun s => s.localFiles.length)
      = .ok 1 ∧
    ((read bufC9 false initState).bind
        (fun s => read bufC9 false s)).map (fun s => s.localFiles.length)
      = .ok 2 := by
  constructor <;> decide

/-- C9 amended: a second plain read() is a no-op — it returns the same
state and accumulates nothing — whenever the first read() stored an EOCD
record and left the cursor within four bytes of the buffer end (the normal
outcome of scanning a well-formed archive); in general a second read()
resumes scanning at the stored cursor and may collect further entries (see
the counterexample). -/
theorem c9_second_read_noop (b : Buf) (st1 : State)
    (h1 : read b false initState = .ok st1)
    (h2 : st1.endOfCentralDirectory.isSome = true)
    (h3 : ¬st1.index + 4 < (b.size : Int)) :
    read b false st1 = .ok st1 := by
  have hscan : scanLoop b false (b.size + 1) st1 = .ok st1 := by
    rw [scanLoop, if_neg h3]
  have hcond : ¬(st1.endOfCentralDirectory = none ∧
      0 < (b.size : Int) - 23 ∧ st1.index < (b.size : Int) - 23) := by
    rintro ⟨hn, -⟩
    rw [hn] at h2
    cases h2
  have hback : runBackward b (b.size + 1) ((b.size : Int) - 23) st1
      = .ok ([], st1) := by
    rw [runBackward, if_neg hcond]
  have hhot : runHotspots b st1 = .ok ([], st1) := by
    unfold runHotspots
    rw [if_pos h2]
  have hloc : runLocator b st1 = .ok ([], st1) := by
    unfold runLocator
    rw [hhot]
    show (match runBackward b (b.size + 1) ((b.size : Int) - 23) st1 with
      | Except.error e => Except.error e
      | Except.ok (t2, st2) =>
        Except.ok (([] : List Int) ++ t2, st2)) = Except.ok ([], st1)
    rw [hback]
    rfl
  show (match scanLoop b false (b.size + 1) st1 with
    | Except.error e => Except.error e
    | Except.ok st' =>
      match runLocator b st' with
      | Except.error e => Except.error e
      | Except.ok (_, st2) => Except.ok st2) = Except.ok st1
  rw [hscan]
  show (match runLocator b st1 with
    | Except.error e => Except.error e
    | Except.ok (_, st2) => Except.ok st2) = Except.ok st1
  rw [hloc]

/-- C9 witness: the amended statement applied to a 22-byte archive that is
a single EOCD record, on which the first read() stores the record and ends
with the cursor at the buffer end. -/
theorem c9_second_read_noop_witness :
    read bufC9w false
        { index := 22, localFiles := [], centralDirectories := [],
          endOfCentralDirectory := some
            { signature := 0x06054b50, numberOfDisks := 0,
              centralDirectoryStartDisk := 0,
              numberCentralDirectoryRecordsOnThisDisk := 0,
              numberCentralDirectoryRecords := 0, centralDirectorySize := 0,
              centralDirectoryOffset := 0, commentLength := 0,
              comment := [], totalLength := 22 } }
      = .ok { index := 22, localFiles := [], centralDirectories := [],
              endOfCentralDirectory := some
                { signature := 0x06054b50, numberOfDisks := 0,
                  centralDirectoryStartDisk := 0,
                  numberCentralDirectoryRecordsOnThisDisk := 0,
                  numberCentralDirectoryRecords := 0,
                  centralDirectorySize := 0, centralDirectoryOffset := 0,
                  commentLength := 0, comment := [], totalLength := 22 } } :=
  c9_second_read_noop bufC9w _ (by decide) (by decide) (by decide)

/-- C2 counterexample: every Local File Header in bufC2 has bit 3 clear,
yet the plain sequential scan collects the local entry at offset 46 (it
keeps scanning after decoding the Central Directory Header at offset 0)
while the central-directory-authoritative re-scan collects no entry at all
(it breaks at the first foreign signature), so the two scans do not
produce the same set of entries. -/
theorem c2_counter :
    SizesUpfront bufC2 ∧
    (read bufC2 false initState).map
        (fun s => s.localFiles.map (fun e => e.startsAt)) = .ok [(76 : Int)] ∧
    ((read bufC2 false initState).bind
        (fun s => read bufC2 true s)).map (fun s => s.localFiles)
      = .ok [] := by
  refine ⟨?_, by decide, by decide⟩
  decide

/-- The state-threading central-directory loop equals the pure list of
decoded entries appended to the accumulator. -/
theorem cdLoop_eq_cdListFrom (b : Buf) (stop : Int) :
    ∀ (fuel : Nat) (ro : Int) (acc : List CentralDirectoryEntry),
      cdLoop b stop fuel ro acc =
        (cdListFrom b stop fuel ro).map (fun l => acc ++ l) := by
  intro fuel
  induction fuel with
  | zero => intro ro acc; simp [cdLoop, cdListFrom, Except.map]
  | succ n ih =>
    intro ro acc
    rw [cdLoop, cdListFrom]
    split
    · rcases hc : readCentralDirectory b ro with e | c
      · simp [Except.map]
      · rcases hl : cdListFrom b stop n (ro + (c.totalLength : Int)) with e | l
        · simp [Except.map, ih, hl]
        · simp [Except.map, ih, hl]
    · simp [Except.map]

/-- C3: the EOCD validation of heuristicsCentralDirectorySearch succeeds
exactly when the signature at the candidate offset is 0x06054b50, the
record decoded there consumes exactly bufferLength - offset bytes, and the
four bytes at its declared central-directory offset form the Central
Directory Header signature 0x02014b50; on success the record is stored and
the central-directory entries decoded sequentially from the declared offset
until the read position reaches the candidate offset are appended to the
central-directory list, and on failure the state is untouched. -/
theorem c3_heuristics_validation (b : Buf) (st : State) (off : Int)
    (succ : Bool) (st' : State)
    (h : heuristicsCentralDirectorySearch b st off = .ok (succ, st')) :
    (succ = true ↔ ∃ r, getU32 b off = .ok 0x06054b50 ∧
        readEndCentralDirectory b off = .ok r ∧
        (r.totalLength : Int) = (b.size : Int) - off ∧
        getU32 b (r.centralDirectoryOffset : Int) = .ok 0x02014b50) ∧
    (succ = true → ∃ r l, readEndCentralDirectory b off = .ok r ∧
        cdListFrom b off (b.size + 1) (r.centralDirectoryOffset : Int)
          = .ok l ∧
        st' = { st with endOfCentralDirectory := some r,
                        centralDirectories := st.centralDirectories ++ l }) ∧
    (succ = false → st' = st) := by
  unfold heuristicsCentralDirectorySearch at h
  split at h
  · exact Except.noConfusion h
  next sig hsig =>
    split at h
    next heq =>
      subst heq
      split at h
      · exact Except.noConfusion h
      next r hr =>
        split at h
        next htl =>
          split at h
          · exact Except.noConfusion h
          next sig2 hsig2 =>
            split at h
            next heq2 =>
              subst heq2
              rw [cdLoop_eq_cdListFrom] at h
              rcases hl : cdListFrom b off (b.size + 1)
                  (r.centralDirectoryOffset : Int) with e | l
              · rw [hl] at h
                exact Except.noConfusion h
              · rw [hl] at h
                simp only [Except.map] at h
                cases h with
                | refl => exact ⟨by simp [hsig, hr, htl, hsig2],
                    fun _ => ⟨r, l, hr, hl, rfl⟩, by simp⟩
            next hne2 =>
              cases h with
              | refl =>
                refine ⟨?_, by simp, fun _ => rfl⟩
                constructor
                · intro hfalse
                  cases hfalse
                · rintro ⟨r', h1, h2, h3, h4⟩
                  rw [hr] at h2
                  cases h2
                  exact absurd h4 (by rw [hsig2]; intro hx; cases hx; exact hne2 rfl)
        next hne =>
          cases h with
          | refl =>
            refine ⟨?_, by simp, fun _ => rfl⟩
            constructor
            · intro hfalse
              cases hfalse
            · rintro ⟨r', h1, h2, h3, h4⟩
              rw [hr] at h2
              cases h2
              exact absurd h3 hne
    next hnesig =>
      cases h with
      | refl =>
        refine ⟨?_, by simp, fun _ => rfl⟩
        constructor
        · intro hfalse
          cases hfalse
        · rintro ⟨r', h1, h2, h3, h4⟩
          rw [hsig] at h1
          cases h1
          exact (hnesig rfl).elim

/-- C3 witness: the validation specification applied to the successful
validation at offset 46 of bufC3w. -/
theorem c3_heuristics_validation_witness :
    ∃ r l, readEndCentralDirectory bufC3w 46 = .ok r ∧
      cdListFrom bufC3w 46 (bufC3w.size + 1) (r.centralDirectoryOffset : Int)
        = .ok l ∧
      stC3x = { initState with
                endOfCentralDirectory := some r,
                centralDirectories := initState.centralDirectories ++ l } :=
  (c3_heuristics_validation bufC3w initState 46 true stC3x (by decide)).2.1 rfl

/-- A failed validation returns the state untouched. -/
theorem heuristics_false_state (b : Buf) (st : State) (o : Int) (st' : State)
    (h : heuristicsCentralDirectorySearch b st o = .ok (false, st')) :
    st' = st := by
  unfold heuristicsCentralDirectorySearch at h
  split at h
  · exact Except.noConfusion h
  next sig hsig =>
    split at h
    · split at h
      · exact Except.noConfusion h
      next r hr =>
        split at h
        · split at h
          · exact Except.noConfusion h
          next sig2 hsig2 =>
            split at h
            · split at h
              · exact Except.noConfusion h
              · simp at h
            · simp at h
              exact h.symm
        · simp at h
          exact h.symm
    · simp at h
      exact h.symm

/-- A successful validation stores the EOCD record decoded at the probed
offset, whose total length matches the remaining tail exactly, and leaves
the cursor and local-entries list untouched. -/
theorem heuristics_true_state (b : Buf) (st : State) (o : Int) (st' : State)
    (h : heuristicsCentralDirectorySearch b st o = .ok (true, st')) :
    ∃ r, readEndCentralDirectory b o = .ok r ∧
      st'.endOfCentralDirectory = some r ∧
      (r.totalLength : Int) = (b.size : Int) - o ∧
      st'.index = st.index ∧ st'.localFiles = st.localFiles := by
  unfold heuristicsCentralDirectorySearch at h
  split at h
  · exact Except.noConfusion h
  next sig hsig =>
    split at h
    · split at h
      · exact Except.noConfusion h
      next r hr =>
        split at h
        next htl =>
          split at h
          · exact Except.noConfusion h
          next sig2 hsig2 =>
            split at h
            · split at h
              · exact Except.noConfusion h
              next cds hcds =>
                simp only [Except.ok.injEq, Prod.mk.injEq, true_and] at h
                subst h
                exact ⟨r, hr, rfl, htl, rfl, rfl⟩
            · simp at h
        next => simp at h
    · simp at h

/-- Any validation outcome leaves the cursor and local entries untouched. -/
theorem heuristics_preserves (b : Buf) (st : State) (o : Int) (flag : Bool)
    (st' : State)
    (h : heuristicsCentralDirectorySearch b st o = .ok (flag, st')) :
    st'.index = st.index ∧ st'.localFiles = st.localFiles := by
  cases flag
  · rw [heuristics_false_state b st o st' h]
    exact ⟨rfl, rfl⟩
  · obtain ⟨r, -, -, -, hi, hlf⟩ := heuristics_true_state b st o st' h
    exact ⟨hi, hlf⟩

/-- The hot-spot for-loop is the generic first-success probe runner. -/
theorem tryHotspots_eq_spec (b : Buf) : ∀ (l : List Int) (st : State),
    tryHotspots b l st = specProbeRun b l st := by
  intro l
  induction l with
  | nil => intro st; rfl
  | cons o rest ih =>
    intro st
    rcases hres : heuristicsCentralDirectorySearch b st o with e | ⟨flag, st'⟩
    · simp [tryHotspots, specProbeRun, hres]
    · cases flag
      · simp [tryHotspots, specProbeRun, hres, ih]
      · simp [tryHotspots, specProbeRun, hres]

/-- The backward while-loop is the generic first-success probe runner over
the descending candidate list from its start offset down to just above the
scanner's cursor. -/
theorem runBackward_eq_spec (b : Buf) : ∀ (fuel : Nat) (bi : Int) (st : State),
    0 ≤ st.index → st.endOfCentralDirectory = none →
    runBackward b fuel bi st =
      specProbeRun b (backwardCands fuel bi st.index) st := by
  intro fuel
  induction fuel with
  | zero => intro bi st h0 hn; rfl
  | succ n ih =>
    intro bi st h0 hn
    by_cases hlt : st.index < bi
    · rw [runBackward, if_pos ⟨hn, by omega, hlt⟩, backwardCands, if_pos hlt]
      rcases hres : heuristicsCentralDirectorySearch b st bi with e | ⟨flag, st'⟩
      · simp [specProbeRun, hres]
      · cases flag
        · have hse := heuristics_false_state b st bi st' hres
          subst hse
          simp only [specProbeRun, hres]
          rw [ih (bi - 1) st' h0 hn]
        · simp [specProbeRun, hres]
    · rw [runBackward, if_neg (by rintro ⟨-, -, hlt2⟩; exact hlt hlt2),
        backwardCands, if_neg hlt]
      rfl

/-- Probing a candidate list and then running the backward scan equals one
first-success run over the concatenated candidate list, provided no EOCD
record is stored yet. -/
theorem probe_then_backward (b : Buf) (st : State) (hidx : 0 ≤ st.index)
    (hn : st.endOfCentralDirectory = none) : ∀ l : List Int,
    (match specProbeRun b l st with
     | .error e => .error e
     | .ok (t1, s1) =>
       match runBackward b (b.size + 1) ((b.size : Int) - 23) s1 with
       | .error e => .error e
       | .ok (t2, s2) => .ok (t1 ++ t2, s2)) =
    specProbeRun b
      (l ++ backwardCands (b.size + 1) ((b.size : Int) - 23) st.index) st := by
  intro l
  induction l with
  | nil =>
    simp only [specProbeRun, List.nil_append]
    rw [runBackward_eq_spec b _ _ st hidx hn]
    rcases hres : specProbeRun b
        (backwardCands (b.size + 1) ((b.size : Int) - 23) st.index) st
      with e | ⟨t2, s2⟩ <;> simp [hres]
  | cons o rest ih =>
    rcases hres : heuristicsCentralDirectorySearch b st o with e | ⟨flag, s1⟩
    · simp [specProbeRun, hres]
    · cases flag
      · have hse := heuristics_false_state b st o s1 hres
        subst hse
        have hL : specProbeRun b (o :: rest) s1 =
            match specProbeRun b rest s1 with
            | .error e => .error e
            | .ok (tr, st'') => .ok (o :: tr, st'') := by
          simp [specProbeRun, hres]
        have hR : specProbeRun b ((o :: rest) ++
            backwardCands (b.size + 1) ((b.size : Int) - 23) s1.index) s1 =
            match specProbeRun b (rest ++ backwardCands (b.size + 1)
              ((b.size : Int) - 23) s1.index) s1 with
            | .error e => .error e
            | .ok (tr, st'') => .ok (o :: tr, st'') := by
          simp [specProbeRun, hres]
        rw [hL, hR, ← ih]
        rcases hrest : specProbeRun b rest s1 with e | ⟨tr, s⟩
        · simp [hrest]
        · rcases hb : runBackward b (b.size + 1) ((b.size : Int) - 23) s
            with e | ⟨t2, s2⟩ <;> simp [hrest, hb]
      · obtain ⟨r, -, hsome, -, -, -⟩ := heuristics_true_state b st o s1 hres
        simp only [specProbeRun, hres]
        rw [runBackward, if_neg (by rw [hsome]; rintro ⟨hc, -⟩; cases hc)]
        simp

/-- C4: with no EOCD record stored after the scan, the locator probes
exactly (in this order, with first-success early stop) bufferLength - 22,
then bufferLength - 65536 - 22 only when the buffer is larger than
64 KiB + 22 bytes, then the backward candidates from bufferLength - 23
decrementing down to but not below the scanner's last cursor; and the
locator performs no probe at all when an EOCD record is already stored. -/
theorem c4_locator_candidates (b : Buf) (st : State) (hidx : 0 ≤ st.index) :
    (st.endOfCentralDirectory = none →
      runLocator b st = specProbeRun b (specCandidates b st) st) ∧
    (st.endOfCentralDirectory.isSome = true →
      runLocator b st = .ok ([], st)) := by
  constructor
  · intro hn
    have hlists : hotspotList b ++
        backwardCands (b.size + 1) ((b.size : Int) - 23) st.index =
        specCandidates b st := by
      unfold hotspotList specCandidates
      congr 2
      exact if_congr (by omega) rfl rfl
    unfold runLocator runHotspots
    rw [if_neg (by simp [hn]), tryHotspots_eq_spec]
    rw [probe_then_backward b st hidx hn (hotspotList b), hlists]
  · intro hs
    unfold runLocator runHotspots
    rw [if_pos hs]
    show (match runBackward b (b.size + 1) ((b.size : Int) - 23) st with
      | Except.error e => Except.error e
      | Except.ok (t2, st2) =>
        Except.ok (([] : List Int) ++ t2, st2)) = Except.ok ([], st)
    rw [runBackward, if_neg (by rintro ⟨hc, -⟩; rw [hc] at hs; cases hs)]
    rfl

/-- C4 witness: the probe-order equivalence applied to the concrete buffer
bufC7 and the fresh reader state. -/
theorem c4_locator_candidates_witness :
    runLocator bufC7 initState =
      specProbeRun bufC7 (specCandidates bufC7 initState) initState :=
  (c4_locator_candidates bufC7 initState (by decide)).1 rfl

/-- Unfolding equation for the hot-spot for-loop on a nonempty list. -/
theorem tryHotspots_cons (b : Buf) (o : Int) (rest : List Int) (st : State) :
    tryHotspots b (o :: rest) st =
      match heuristicsCentralDirectorySearch b st o with
      | .error e => .error e
      | .ok (true, st') => .ok ([o], st')
      | .ok (false, st') =>
        match tryHotspots b rest st' with
        | .error e => .error e
        | .ok (tr, st'') => .ok (o :: tr, st'') := rfl

/-- When the hot-spot phase stores an EOCD record, the record was decoded
at bufferLength - 22 and carries an empty comment: the second hot spot
bufferLength - 65536 - 22 can never validate, since validation demands a
total length of exactly 65558 bytes while the 16-bit comment-length field
caps the record's total length at 22 + 65535. -/
theorem runHotspots_success (b : Buf) (st : State) (tr : List Int)
    (st' : State) (e : EndOfCentralDirectoryRecord)
    (hn : st.endOfCentralDirectory = none)
    (h : runHotspots b st = .ok (tr, st'))
    (he : st'.endOfCentralDirectory = some e) :
    readEndCentralDirectory b ((b.size : Int) - 22) = .ok e ∧
      e.commentLength = 0 := by
  unfold runHotspots at h
  rw [if_neg (by simp [hn])] at h
  unfold hotspotList at h
  rcases h1 : heuristicsCentralDirectorySearch b st ((b.size : Int) - 22)
    with er | ⟨flag, s1⟩
  · by_cases hj : 0 < (b.size : Int) - 64 * 1024 - 22 <;>
      [rw [if_pos hj] at h; rw [if_neg hj] at h] <;>
      simp only [List.singleton_append, List.append_nil,
        tryHotspots_cons, h1] at h <;>
      exact Except.noConfusion h
  · cases flag
    · -- the first hot spot fails, so the state is unchanged
      have hse := heuristics_false_state b st _ s1 h1
      subst hse
      by_cases hj : 0 < (b.size : Int) - 64 * 1024 - 22
      · rw [if_pos hj] at h
        simp only [List.singleton_append, tryHotspots_cons, h1] at h
        rcases h2 : heuristicsCentralDirectorySearch b s1
            ((b.size : Int) - 64 * 1024 - 22) with er | ⟨flag2, s2⟩
        · simp only [tryHotspots_cons, h2] at h
          exact Except.noConfusion h
        · cases flag2
          · have hse2 := heuristics_false_state b s1 _ s2 h2
            subst hse2
            simp only [tryHotspots_cons, h2, tryHotspots] at h
            simp only [Except.ok.injEq, Prod.mk.injEq] at h
            rw [← h.2] at he
            rw [hn] at he
            exact Option.noConfusion he
          · simp only [tryHotspots_cons, h2] at h
            obtain ⟨r, hr, hsome, htl, -, -⟩ :=
              heuristics_true_state b s1 _ s2 h2
            obtain ⟨htl', hcl⟩ := readEOCD_totalLength hr
            exfalso
            omega
      · rw [if_neg hj] at h
        simp only [List.append_nil, tryHotspots_cons, h1, tryHotspots] at h
        simp only [Except.ok.injEq, Prod.mk.injEq] at h
        rw [← h.2] at he
        rw [hn] at he
        exact Option.noConfusion he
    · -- the first hot spot succeeds
      obtain ⟨r, hr, hsome, htl, -, -⟩ := heuristics_true_state b st _ s1 h1
      obtain ⟨htl', hcl⟩ := readEOCD_totalLength hr
      have hstop : ∀ l : List Int,
          tryHotspots b (((b.size : Int) - 22) :: l) st = .ok
            ([(b.size : Int) - 22], s1) := by
        intro l
        rw [tryHotspots_cons, h1]
      by_cases hj : 0 < (b.size : Int) - 64 * 1024 - 22 <;>
        [rw [if_pos hj] at h; rw [if_neg hj] at h] <;>
        simp only [List.singleton_append, List.append_nil, hstop,
          Except.ok.injEq, Prod.mk.injEq] at h <;>
        rw [← h.2] at he <;>
        rw [hsome] at he <;>
        cases he <;>
        exact ⟨hr, by omega⟩

/-- When the backward scan starting at an offset stores an EOCD record, the
record was decoded at some probed offset no larger than the start offset,
and its total length matches the tail from that offset exactly. -/
theorem runBackward_success (b : Buf) : ∀ (fuel : Nat) (bi : Int)
    (st : State) (tr : List Int) (st' : State)
    (e : EndOfCentralDirectoryRecord),
    st.endOfCentralDirectory = none →
    runBackward b fuel bi st = .ok (tr, st') →
    st'.endOfCentralDirectory = some e →
    ∃ o : Int, o ≤ bi ∧ readEndCentralDirectory b o = .ok e ∧
      (e.totalLength : Int) = (b.size : Int) - o := by
  intro fuel
  induction fuel with
  | zero =>
    intro bi st tr st' e hn h he
    cases h
    rw [hn] at he
    exact Option.noConfusion he
  | succ n ih =>
    intro bi st tr st' e hn h he
    rw [runBackward] at h
    split at h
    · split at h
      · exact Except.noConfusion h
      next s1 heq =>
        cases h
        obtain ⟨r, hr, hsome, htl, -, -⟩ := heuristics_true_state b st _ _ heq
        rw [hsome] at he
        cases he
        exact ⟨bi, le_refl bi, hr, htl⟩
      next s1 heq =>
        have hse := heuristics_false_state b st _ s1 heq
        subst hse
        rcases hrec : runBackward b n (bi - 1) s1 with er | ⟨tr2, st2⟩
        · simp only [hrec] at h
          exact Except.noConfusion h
        · simp only [hrec, Except.ok.injEq, Prod.mk.injEq] at h
          obtain ⟨-, hst⟩ := h
          subst hst
          obtain ⟨o, ho, hr, htl⟩ := ih (bi - 1) s1 tr2 st2 e hn hrec he
          exact ⟨o, by omega, hr, htl⟩
    · cases h
      rw [hn] at he
      exact Option.noConfusion he

set_option maxRecDepth 40000 in
/-- C5 counterexample: on bufC5 hot-spot probing finds and validates an
EOCD record (at offset 98, with empty comment), while the backward-only
scan on the same buffer finds a different record (at offset 76, with a
22-byte comment): the two runs do not yield an identical EOCD record. -/
theorem c5_counter :
    runHotspots bufC5 initState = .ok ([98], stC5A) ∧
    runBackward bufC5 (bufC5.size + 1) ((bufC5.size : Int) - 23) initState
      = .ok (trC5, stC5B) ∧
    eocdC5A ≠ eocdC5B := by
  refine ⟨by decide, by decide, by decide⟩

/-- C5 amended: whenever both the hot-spot probe phase and the
backward-only brute-force scan (run on the same post-scan state with no
EOCD stored) each find an EOCD record, the two records necessarily differ:
a hot-spot success always happens at bufferLength - 22 and yields a record
with comment length 0 (the 64 KiB hot spot can never pass the
exact-tail-length check), while the backward scan only probes offsets at
most bufferLength - 23, so its record has comment length at least 1. -/
theorem c5_hotspot_vs_backward (b : Buf) (st : State) (tr1 tr2 : List Int)
    (st1 st2 : State) (e1 e2 : EndOfCentralDirectoryRecord)
    (hn : st.endOfCentralDirectory = none)
    (h1 : runHotspots b st = .ok (tr1, st1))
    (he1 : st1.endOfCentralDirectory = some e1)
    (h2 : runBackward b (b.size + 1) ((b.size : Int) - 23) st
      = .ok (tr2, st2))
    (he2 : st2.endOfCentralDirectory = some e2) :
    e1.commentLength = 0 ∧ 1 ≤ e2.commentLength ∧ e1 ≠ e2 := by
  obtain ⟨hr1, hcl1⟩ := runHotspots_success b st tr1 st1 e1 hn h1 he1
  obtain ⟨o, ho, hr2, htl2⟩ := runBackward_success b _ _ st tr2 st2 e2 hn h2 he2
  obtain ⟨htl2', hclb⟩ := readEOCD_totalLength hr2
  have hcl2 : 1 ≤ e2.commentLength := by omega
  refine ⟨hcl1, hcl2, fun hcontra => ?_⟩
  rw [hcontra] at hcl1
  omega

set_option maxRecDepth 40000 in
/-- C5 witness: the amended statement applied to bufC5, where both phases
find a record. -/
theorem c5_hotspot_vs_backward_witness :
    eocdC5A.commentLength = 0 ∧ 1 ≤ eocdC5B.commentLength ∧
      eocdC5A ≠ eocdC5B :=
  c5_hotspot_vs_backward bufC5 initState [98] trC5 stC5A stC5B eocdC5A
    eocdC5B rfl (by decide) (by decide) (by decide) (by decide)

/-- The generic probe runner never touches the cursor or the local-entries
list. -/
theorem specProbeRun_preserves (b : Buf) : ∀ (l : List Int) (st : State)
    (tr : List Int) (st' : State),
    specProbeRun b l st = .ok (tr, st') →
    st'.index = st.index ∧ st'.localFiles = st.localFiles := by
  intro l
  induction l with
  | nil =>
    intro st tr st' h
    cases h
    exact ⟨rfl, rfl⟩
  | cons o rest ih =>
    intro st tr st' h
    rw [specProbeRun] at h
    split at h
    · exact Except.noConfusion h
    next s1 heq =>
      cases h
      exact heuristics_preserves b st o true _ heq
    next s1 heq =>
      have hse := heuristics_false_state b st o s1 heq
      subst hse
      rcases hrec : specProbeRun b rest s1 with er | ⟨tr2, st2⟩
      · simp only [hrec] at h
        exact Except.noConfusion h
      · simp only [hrec, Except.ok.injEq, Prod.mk.injEq] at h
        obtain ⟨-, hst⟩ := h
        subst hst
        exact ih s1 tr2 st2 hrec

/-- The backward while-loop never touches the cursor or the local-entries
list. -/
theorem runBackward_preserves (b : Buf) : ∀ (fuel : Nat) (bi : Int)
    (st : State) (tr : List Int) (st' : State),
    runBackward b fuel bi st = .ok (tr, st') →
    st'.index = st.index ∧ st'.localFiles = st.localFiles := by
  intro fuel
  induction fuel with
  | zero =>
    intro bi st tr st' h
    cases h
    exact ⟨rfl, rfl⟩
  | succ n ih =>
    intro bi st tr st' h
    rw [runBackward] at h
    split at h
    · split at h
      · exact Except.noConfusion h
      next s1 heq =>
        cases h
        exact heuristics_preserves b st bi true _ heq
      next s1 heq =>
        have hse := heuristics_false_state b st bi s1 heq
        subst hse
        rcases hrec : runBackward b n (bi - 1) s1 with er | ⟨tr2, st2⟩
        · simp only [hrec] at h
          exact Except.noConfusion h
        · simp only [hrec, Except.ok.injEq, Prod.mk.injEq] at h
          obtain ⟨-, hst⟩ := h
          subst hst
          exact ih (bi - 1) s1 tr2 st2 hrec
    · cases h
      exact ⟨rfl, rfl⟩

/-- The whole locator never touches the cursor or the local-entries list. -/
theorem runLocator_preserves (b : Buf) (st : State) (tr : List Int)
    (st' : State) (h : runLocator b st = .ok (tr, st')) :
    st'.index = st.index ∧ st'.localFiles = st.localFiles := by
  unfold runLocator at h
  rcases hh : runHotspots b st with er | ⟨t1, s1⟩
  · simp only [hh] at h
    exact Except.noConfusion h
  · simp only [hh] at h
    rcases hb : runBackward b (b.size + 1) ((b.size : Int) - 23) s1
      with er | ⟨t2, s2⟩
    · simp only [hb] at h
      exact Except.noConfusion h
    · simp only [hb, Except.ok.injEq, Prod.mk.injEq] at h
      obtain ⟨-, hst⟩ := h
      subst hst
      have p2 := runBackward_preserves b _ _ s1 t2 s2 hb
      have p1 : s1.index = st.index ∧ s1.localFiles = st.localFiles := by
        unfold runHotspots at hh
        split at hh
        · cases hh
          exact ⟨rfl, rfl⟩
        · rw [tryHotspots_eq_spec] at hh
          exact specProbeRun_preserves b _ st t1 s1 hh
      exact ⟨by rw [p2.1, p1.1], by rw [p2.2, p1.2]⟩

/-- One scan step relates the plain and the central-directory modes: when
the buffer never defers sizes, the two modes either fail identically,
advance with the same cursor and the same local entries, or the
central-directory mode halts with its state untouched. -/
theorem scanStep_mode_rel (b : Buf) (hA : SizesUpfront b) (stF stT : State)
    (hidx : stF.index = stT.index) (hlf : stF.localFiles = stT.localFiles) :
    (∃ er, scanStep b false stF = .fail er ∧ scanStep b true stT = .fail er) ∨
    (∃ sF sT, scanStep b false stF = .next sF ∧
      scanStep b true stT = .next sT ∧
      sF.index = sT.index ∧ sF.localFiles = sT.localFiles) ∨
    scanStep b true stT = .halt stT := by
  rcases hu : getU32 b stT.index with er | sig
  · have huF : getU32 b stF.index = .error er := by rw [hidx, hu]
    left
    exact ⟨er, by unfold scanStep; rw [huF], by unfold scanStep; rw [hu]⟩
  · have huF : getU32 b stF.index = .ok sig := by rw [hidx, hu]
    by_cases hs1 : sig = 0x04034b50
    · subst hs1
      rcases hrl : readLocalFile b stT.index with er | entry
      · have hrlF : readLocalFile b stF.index = .error er := by rw [hidx, hrl]
        left
        refine ⟨er, ?_, ?_⟩ <;> unfold scanStep <;>
          simp [huF, hu, hrlF, hrl]
      · have hrlF : readLocalFile b stF.index = .ok entry := by rw [hidx, hrl]
        have hndd : entry.needsDataDescriptor = false := by
          obtain ⟨h0, h4⟩ := getU32_ok_bounds hu
          have hi : stT.index.toNat < b.size := by omega
          have hcast : (stT.index.toNat : Int) = stT.index :=
            Int.toNat_of_nonneg h0
          have hall := hA stT.index.toNat hi (by rw [hcast]; exact hu)
          rw [hcast, hrl] at hall
          simpa [Except.toOption, Option.all] using hall
        right; left
        refine ⟨{ stF with
                  localFiles := stF.localFiles ++ [entry],
                  index := stF.index + entry.startsAt +
                    (entry.compressedSize : Int) },
                { stT with
                  localFiles := stT.localFiles ++ [entry],
                  index := stT.index + entry.startsAt +
                    (entry.compressedSize : Int) },
                ?_, ?_, by simp [hidx], by simp [hlf]⟩
        · unfold scanStep
          simp [huF, hrlF, hndd]
        · unfold scanStep
          simp [hu, hrl, hndd]
    · by_cases hs2 : sig = 0x08074b50
      · subst hs2
        rcases hdd : readDataDescriptor b stT.index with er | d
        · have hddF : readDataDescriptor b stF.index = .error er := by
            rw [hidx, hdd]
          left
          refine ⟨er, ?_, ?_⟩ <;> unfold scanStep <;>
            simp [huF, hu, hddF, hdd]
        · have hddF : readDataDescriptor b stF.index = .ok d := by
            rw [hidx, hdd]
          by_cases hemp : stT.localFiles = []
          · left
            refine ⟨.typeError, ?_, ?_⟩ <;> unfold scanStep <;>
              simp [huF, hu, hddF, hdd, hlf, hemp]
          · right; left
            have hempF : ¬stF.localFiles = [] := by rw [hlf]; exact hemp
            refine ⟨{ stF with
                      localFiles := patchLast d stF.localFiles,
                      index := stF.index + (d.totalLength : Int) },
                    { stT with
                      localFiles := patchLast d stT.localFiles,
                      index := stT.index + (d.totalLength : Int) },
                    ?_, ?_, by simp [hidx], by simp [hlf]⟩
            · unfold scanStep
              simp [huF, hddF, hempF]
            · unfold scanStep
              simp [hu, hdd, hemp]
      · right; right
        unfold scanStep
        simp [hu, hs1, hs2]

/-- Without any Data Descriptor record in the buffer, the plain scan only
ever appends to the local-entries list. -/
theorem scanStep_next_mono (b : Buf) (hB : NoDescriptorSig b) (st s1 : State)
    (h : scanStep b false st = .next s1) :
    st.localFiles <+: s1.localFiles := by
  unfold scanStep at h
  simp only [Bool.false_eq_true, if_false] at h
  split at h
  · exact StepRes.noConfusion h
  next sig hsig =>
    split at h
    · -- local file header
      split at h
      · exact StepRes.noConfusion h
      next entry hrl =>
        split at h
        · exact StepRes.noConfusion h
        · cases h
          exact List.prefix_append _ _
    · split at h
      next hcond =>
        -- data descriptor: impossible by hB
        exfalso
        obtain ⟨h0, h4⟩ := getU32_ok_bounds hsig
        have hi : st.index.toNat < b.size := by omega
        have hcast : (st.index.toNat : Int) = st.index :=
          Int.toNat_of_nonneg h0
        exact hB st.index.toNat hi (by rw [hcast, hsig, hcond])
      next =>
        split at h
        · -- central directory header: local entries unchanged
          split at h
          · exact StepRes.noConfusion h
          · cases h
            exact List.prefix_refl _
        · split at h
          · -- end of central directory: halts, not next
            split at h
            · exact StepRes.noConfusion h
            · exact StepRes.noConfusion h
          · exact StepRes.noConfusion h

/-- Halting the plain scan never drops collected local entries. -/
theorem scanStep_halt_mono (b : Buf) (st s1 : State)
    (h : scanStep b false st = .halt s1) :
    st.localFiles <+: s1.localFiles := by
  unfold scanStep at h
  simp only [Bool.false_eq_true, if_false] at h
  split at h
  · exact StepRes.noConfusion h
  next sig hsig =>
    split at h
    · -- local file header: halts only at a bit-3 entry, after appending it
      split at h
      · exact StepRes.noConfusion h
      next entry hrl =>
        split at h
        · cases h
          exact List.prefix_append _ _
        · exact StepRes.noConfusion h
    · split at h
      · -- data descriptor: continues or fails, never halts
        split at h
        · exact StepRes.noConfusion h
        · split at h
          · exact StepRes.noConfusion h
          · exact StepRes.noConfusion h
      · split at h
        · -- central directory header: continues or fails, never halts
          split at h
          · exact StepRes.noConfusion h
          · exact StepRes.noConfusion h
        · split at h
          · -- end of central directory: local entries unchanged
            split at h
            · exact StepRes.noConfusion h
            · cases h
              exact List.prefix_refl _
          · cases h
            exact List.prefix_refl _

/-- Without any Data Descriptor record in the buffer, a completed plain
scan extends the local-entries list it started from. -/
theorem scanLoop_mono (b : Buf) (hB : NoDescriptorSig b) :
    ∀ (fuel : Nat) (st st' : State),
      scanLoop b false fuel st = .ok st' →
      st.localFiles <+: st'.localFiles := by
  intro fuel
  induction fuel with
  | zero =>
    intro st st' h
    cases h
    exact List.prefix_refl _
  | succ n ih =>
    intro st st' h
    rw [scanLoop] at h
    split at h
    · rcases hstep : scanStep b false st with s1 | s1 | er
      · simp only [hstep] at h
        exact (scanStep_next_mono b hB st s1 hstep).trans (ih s1 st' h)
      · simp only [hstep] at h
        cases h
        exact scanStep_halt_mono b st _ hstep
      · simp only [hstep] at h
        exact Except.noConfusion h
    · cases h
      exact List.prefix_refl _

/-- The central-directory-mode scan collects an initial segment of the
plain scan's local entries when both scans start from the same cursor and
entry list. -/
theorem scanLoop_mode_le (b : Buf) (hA : SizesUpfront b)
    (hB : NoDescriptorSig b) :
    ∀ (fuel : Nat) (stF stT stP stC : State),
      stF.index = stT.index → stF.localFiles = stT.localFiles →
      scanLoop b false fuel stF = .ok stP →
      scanLoop b true fuel stT = .ok stC →
      stC.localFiles <+: stP.localFiles := by
  intro fuel
  induction fuel with
  | zero =>
    intro stF stT stP stC hidx hlf hP hC
    cases hP
    cases hC
    exact hlf ▸ List.prefix_refl _
  | succ n ih =>
    intro stF stT stP stC hidx hlf hP hC
    rw [scanLoop] at hP hC
    by_cases hg : stF.index + 4 < (b.size : Int)
    · rw [if_pos hg] at hP
      rw [if_pos (hidx ▸ hg)] at hC
      rcases scanStep_mode_rel b hA stF stT hidx hlf with
        ⟨er, hf1, hf2⟩ | ⟨sF, sT, h1, h2, hi', hl'⟩ | hT
      · simp only [hf1] at hP
        exact Except.noConfusion hP
      · simp only [h1] at hP
        simp only [h2] at hC
        exact ih sF sT stP stC hi' hl' hP hC
      · simp only [hT] at hC
        cases hC
        have hP' : scanLoop b false (n + 1) stF = .ok stP := by
          rw [scanLoop, if_pos hg]
          exact hP
        have := scanLoop_mono b hB (n + 1) stF stP hP'
        exact hlf ▸ this
    · rw [if_neg hg] at hP
      rw [if_neg (by rw [← hidx]; exact hg)] at hC
      cases hP
      cases hC
      exact hlf ▸ List.prefix_refl _

/-- C2 amended: on every archive buffer in which no Local File Header
defers its sizes (general-purpose bit 3 clear wherever the local signature
occurs) and no Data Descriptor signature occurs, the local entries
recovered by a central-directory-authoritative re-scan form an initial
segment of (and are record-for-record identical to) the entries recovered
by the plain sequential scan; the two lists need not be equal, because the
plain scan keeps scanning past central-directory and EOCD records and may
collect further local headers after the point where the
central-directory-mode scan stops at the first foreign signature. -/
theorem c2_cd_scan_refines_plain (b : Buf) (st1 st2 : State)
    (hA : SizesUpfront b) (hB : NoDescriptorSig b)
    (h1 : read b false initState = .ok st1)
    (h2 : read b true st1 = .ok st2) :
    st2.localFiles <+: st1.localFiles := by
  unfold read at h1 h2
  simp only [Bool.false_eq_true, if_false, if_true, reduceIte] at h1 h2
  rcases hs1 : scanLoop b false (b.size + 1) initState with er | stM
  · simp only [hs1] at h1
    exact Except.noConfusion h1
  · simp only [hs1] at h1
    rcases hl1 : runLocator b stM with er | ⟨tr, sL⟩
    · simp only [hl1] at h1
      exact Except.noConfusion h1
    · simp only [hl1] at h1
      have hLF : st1.localFiles = stM.localFiles := by
        cases h1
        exact (runLocator_preserves b stM tr _ hl1).2
      rcases hs2 : scanLoop b true (b.size + 1)
          { st1 with index := 0, localFiles := [] } with er | sC
      · simp only [hs2] at h2
        exact Except.noConfusion h2
      · simp only [hs2] at h2
        have hC2 : st2.localFiles = sC.localFiles := by
          cases h2
          rfl
        have hmain := scanLoop_mode_le b hA hB (b.size + 1) initState
          { st1 with index := 0, localFiles := [] } stM sC rfl rfl hs1 hs2
        rw [hC2, hLF]
        exact hmain

/-- The state recovered by both the plain and the central-directory read
of bufC7. -/
def stC7r : State :=
  { index := 31, localFiles := [eC7], centralDirectories := [],
    endOfCentralDirectory := none }

/-- C2 witness: the refinement applied to the one-entry archive bufC7,
whose plain and central-directory scans both recover exactly [eC7]. -/
theorem c2_cd_scan_refines_plain_witness :
    stC7r.localFiles <+: stC7r.localFiles :=
  c2_cd_scan_refines_plain bufC7 stC7r stC7r (by decide) (by decide)
    (by decide) (by decide)

end TinyUnzip
